import Mathlib

/-!
Shallow embedding of the measurement-verification and record-matching scripts
(`scripts/parse_calculations.py`, `scripts/analyze_merged_graphics.py`,
`scripts/stats_d.py`).  Python floats are modelled by `ℚ`; a Python
`ZeroDivisionError` is modelled by `Except.error ()`; the float `NaN` produced
for a near-zero denominator is modelled by `none : Option ℚ`.
-/

namespace AnalyzisExpertize

/-! ### parse_calculations.py : tolerances and data model -/

/-- Absolute tolerance `TOL_ABS = 0.002` (parse_calculations.py line 20). -/
def TOL_ABS : ℚ := 2 / 1000

/-- Relative tolerance `TOL_REL = 0.001` (parse_calculations.py line 21). -/
def TOL_REL : ℚ := 1 / 1000

/-- One parsed measurement record: eight raw inputs and four stated derived
quantities, as produced by `parse_block` (parse_calculations.py lines 71-75). -/
structure MeasurementBlock where
  K1 : ℚ
  K2 : ℚ
  L1 : ℚ
  L2 : ℚ
  P1 : ℚ
  P2 : ℚ
  R1 : ℚ
  R2 : ℚ
  G1 : ℚ
  G2 : ℚ
  G : ℚ
  D : ℚ
  deriving DecidableEq, Repr

/-- The record returned by `verify_block` (parse_calculations.py lines 91-95).
`D_check = none` models the float `NaN` assigned on a near-zero denominator. -/
structure VerifyResult where
  G1_check : ℚ
  G2_check : ℚ
  G_check : ℚ
  D_check : Option ℚ
  ok_G1 : Bool
  ok_G2 : Bool
  ok_G : Bool
  ok_D : Bool
  matched : Bool
  deriving DecidableEq, Repr

/-- The dual-tolerance comparison `abs(check - stated) <= TOL_ABS or
abs((check - stated) / stated) <= TOL_REL` used for `ok_g1`, `ok_g2`, `ok_d`
(parse_calculations.py lines 87, 88, 90).  Python's `or` short-circuits, so the
division by `stated` is only reached — and only raises on `stated = 0` — when
the absolute test fails. -/
def checkVal (check stated : ℚ) : Except Unit Bool :=
  if |check - stated| ≤ TOL_ABS then .ok true
  else if stated = 0 then .error ()
  else .ok (decide (|(check - stated) / stated| ≤ TOL_REL))

/-- The guarded comparison for `ok_g` (parse_calculations.py line 89):
`abs(g_check - G) <= TOL_ABS or (b["G"] and abs((g_check - G) / G) <= TOL_REL)`.
The truthiness guard `b["G"] and …` makes a stated `G = 0` yield the falsy
`0.0` instead of dividing by zero. -/
def checkG (check stated : ℚ) : Bool :=
  if |check - stated| ≤ TOL_ABS then true
  else if stated = 0 then false
  else decide (|(check - stated) / stated| ≤ TOL_REL)

/-- The `ok_d` comparison (parse_calculations.py line 90) including the `NaN`
case: every float comparison against `NaN` is false, so a `NaN` check value
fails the absolute test and then divides by the stated `D` (raising on
`D = 0`), always producing `False` otherwise. -/
def checkD (dcheck : Option ℚ) (stated : ℚ) : Except Unit Bool :=
  match dcheck with
  | none => if stated = 0 then .error () else .ok false
  | some dc => checkVal dc stated

/-- Local value `g1_check = b["K2"] / b["K1"] + b["P2"] / b["P1"]`
(parse_calculations.py line 80). -/
def g1_check (b : MeasurementBlock) : ℚ := b.K2 / b.K1 + b.P2 / b.P1

/-- Local value `g2_check = b["L2"] / b["L1"] + b["R2"] / b["R1"]`
(parse_calculations.py line 81). -/
def g2_check (b : MeasurementBlock) : ℚ := b.L2 / b.L1 + b.R2 / b.R1

/-- Local value `g_check = g2_check - g1_check` (parse_calculations.py
line 82). -/
def g_check (b : MeasurementBlock) : ℚ := g2_check b - g1_check b

/-- Local value `d_check` (parse_calculations.py lines 83-86): `NaN` — here
`none` — when `abs(g_check) < 1e-12`, and `b["G1"] / g_check` otherwise.  In
the division branch the denominator is provably nonzero. -/
def d_check (b : MeasurementBlock) : Option ℚ :=
  if |g_check b| < 1 / 10 ^ 12 then none else some (b.G1 / g_check b)

/-- Model of `verify_block` (parse_calculations.py lines 78-95).  The leading
guard models the `ZeroDivisionError` raised by `K2/K1`, `P2/P1`, `L2/L1`,
`R2/R1` when a raw denominator is zero; with `Unit` as the error type the
order in which Python would raise is not observable. -/
def verify_block (b : MeasurementBlock) : Except Unit VerifyResult :=
  if b.K1 = 0 ∨ b.P1 = 0 ∨ b.L1 = 0 ∨ b.R1 = 0 then .error () else
  match checkVal (g1_check b) b.G1, checkVal (g2_check b) b.G2, checkD (d_check b) b.D with
  | .ok ok_g1, .ok ok_g2, .ok ok_d =>
      .ok { G1_check := g1_check b, G2_check := g2_check b, G_check := g_check b,
            D_check := d_check b,
            ok_G1 := ok_g1, ok_G2 := ok_g2, ok_G := checkG (g_check b) b.G, ok_D := ok_d,
            matched := ok_g1 && ok_g2 && checkG (g_check b) b.G && ok_d }
  | _, _, _ => .error ()

/-! ### analyze_merged_graphics.py : cross-source matcher -/

/-- Matching tolerance `K_MATCH_TOLERANCE = 0.001`
(analyze_merged_graphics.py line 27). -/
def K_MATCH_TOLERANCE : ℚ := 1 / 1000

/-- One entry of `calc["blocks"]` as consumed by the matcher in
analyze_merged_graphics.py: the assigned index and the four ratio fields the
matching tiers read. -/
structure CBlock where
  block_index : ℤ
  K1 : ℚ
  K2 : ℚ
  L1 : ℚ
  L2 : ℚ
  deriving DecidableEq, Repr

/-- Function `block_index_from_page_graph` (analyze_merged_graphics.py
lines 22-23): `(page - 1) * 2 + graph_id`. -/
def block_index_from_page_graph (page graph_id : ℤ) : ℤ :=
  (page - 1) * 2 + graph_id

/-- One iteration of the nearest-neighbour loops in `find_block_by_k1_k2` and
`find_block_by_l1_l2` (analyze_merged_graphics.py lines 34-38 and 48-52): the
running best is replaced only on a strictly smaller distance.  The initial
Python state `(None, inf)` is modelled by `none`, which the first candidate
always replaces. -/
def bestStep (dist : CBlock → ℚ) : Option (CBlock × ℚ) → CBlock → Option (CBlock × ℚ)
  | none, x => some (x, dist x)
  | some (b, d), x => if dist x < d then some (x, dist x) else some (b, d)

/-- The full nearest-neighbour scan: fold `bestStep` over all candidates. -/
def bestFold (dist : CBlock → ℚ) (blocks : List CBlock) : Option (CBlock × ℚ) :=
  blocks.foldl (bestStep dist) none

/-- Function `find_block_by_k1_k2` (analyze_merged_graphics.py lines 30-41):
L1 distance `|b.K1 - K1| + |b.K2 - K2|` over all blocks, accept the global
minimum only within `K_MATCH_TOLERANCE`. -/
def find_block_by_k1_k2 (blocks : List CBlock) (K1 K2 : ℚ) : Option CBlock :=
  match bestFold (fun b => |b.K1 - K1| + |b.K2 - K2|) blocks with
  | some (b, d) => if d ≤ K_MATCH_TOLERANCE then some b else none
  | none => none

/-- Function `find_block_by_l1_l2` (analyze_merged_graphics.py lines 44-55):
L1 distance on the `L1`, `L2` fields with default tolerance `0.02`. -/
def find_block_by_l1_l2 (blocks : List CBlock) (L1 L2 : ℚ)
    (tolerance : ℚ := 2 / 100) : Option CBlock :=
  match bestFold (fun b => |b.L1 - L1| + |b.L2 - L2|) blocks with
  | some (b, d) => if d ≤ tolerance then some b else none
  | none => none

/-- The lookup dictionary `blocks_by_idx = {b["block_index"]: b for b in
calc["blocks"]}` (analyze_merged_graphics.py line 63); a later duplicate
index overwrites an earlier one, hence the search from the rear. -/
def blocks_by_idx (blocks : List CBlock) (i : ℤ) : Option CBlock :=
  blocks.reverse.find? (fun b => b.block_index == i)

/-- Which matching tier produced a match, as reported in the `note` column of
analyze_merged_graphics.py lines 130-136. -/
inductive MatchTier where
  | by_index
  | by_k1_k2
  | by_l1_l2
  deriving DecidableEq, Repr

/-- The three-tier match of `main` (analyze_merged_graphics.py lines 110-119
and 130-136): positional lookup by block index first; if the slot is absent,
nearest neighbour on `(K1, K2)`; if that fails, the fallback
`find_block_by_l1_l2` — called, as in the source, with the same `K1`, `K2`
query values. -/
def matchBlock (blocks : List CBlock) (page graph_id : ℤ) (K1 K2 : ℚ) :
    Option (CBlock × MatchTier) :=
  match blocks_by_idx blocks (block_index_from_page_graph page graph_id) with
  | some b => some (b, .by_index)
  | none =>
    match find_block_by_k1_k2 blocks K1 K2 with
    | some b => some (b, .by_k1_k2)
    | none =>
      match find_block_by_l1_l2 blocks K1 K2 with
      | some b => some (b, .by_l1_l2)
      | none => none

/-! ### stats_d.py : fixed-width-bin histogram -/

/-- The fixed bin edges (stats_d.py line 35). -/
def bins : List ℚ := [56, 56.25, 56.5, 56.75, 57, 57.25, 57.5, 57.75, 58]

/-- Bin assignment for one sample (stats_d.py lines 37-47): the first `i`
with `bins[i] <= d < bins[i+1]`; if none matches (the `for`-`else` branch),
the last bin when `d >= bins[-1]`, and otherwise no bin at all — the sample
is silently dropped. -/
def binOf (d : ℚ) : Option ℕ :=
  match (List.range (bins.length - 1)).find?
      (fun i => decide (bins.getD i 0 ≤ d ∧ d < bins.getD (i + 1) 0)) with
  | some i => some i
  | none => if bins.getD (bins.length - 1) 0 ≤ d then some (bins.length - 2) else none

/-- One iteration of the histogram loop (stats_d.py lines 37-47),
incrementing the count of the assigned bin. -/
def histStep (h : List ℕ) (d : ℚ) : List ℕ :=
  match binOf d with
  | some i => h.set i (h.getD i 0 + 1)
  | none => h

/-- The histogram of stats_d.py lines 36-47: all counts start at zero, then
every sample is processed in order. -/
def histLoop (samples : List ℚ) : List ℕ :=
  samples.foldl histStep (List.replicate (bins.length - 1) 0)

/-! ### parse_calculations.py : record extractor -/

/-- The separator normalisation `s.replace(",", ".")` in `parse_float`
(parse_calculations.py lines 38-40); strings are modelled as `List Char`. -/
def normalizeSep (s : List Char) : List Char :=
  s.map (fun c => if c = ',' then '.' else c)

/-- Value of a digit string, as `float` would read its integer part. -/
def digitsVal (s : List Char) : ℕ :=
  s.foldl (fun n c => n * 10 + (c.toNat - 48)) 0

/-- Split a character list on the `.` separator. -/
def splitOnDot : List Char → List (List Char)
  | [] => [[]]
  | c :: rest =>
    let r := splitOnDot rest
    if c = '.' then [] :: r
    else
      match r with
      | [] => [[c]]
      | h :: t => (c :: h) :: t

/-- Value of a decimal string made of digits and at most one `.`, as Python's
`float` reads it: `float("1.")` is `1.0` and `float(".5")` is `0.5`, but a
string with no digit at all (`"."`, `""`) or with more than one `.`
(`"1.2.3"` — all producible by the regex `[\d.,]+`) makes `float` raise
`ValueError`, modelled by `none`. -/
def parseDecimal (s : List Char) : Option ℚ :=
  match splitOnDot s with
  | [w] => if w = [] then none else some (digitsVal w : ℚ)
  | [w, f] =>
    if w = [] ∧ f = [] then none
    else some ((digitsVal w : ℚ) + (digitsVal f : ℚ) / 10 ^ f.length)
  | _ => none

/-- Function `parse_float` (parse_calculations.py lines 38-40): normalise `,`
to `.`, then read the decimal; `none` models a `ValueError` from `float`. -/
def parse_float (s : List Char) : Option ℚ :=
  parseDecimal (normalizeSep s)

/-- What the five regular-expression searches of `parse_block`
(parse_calculations.py lines 46-64) can extract from one text chunk: the
matched numeric substrings for each required field group, or `none` when the
pattern is absent. -/
structure Chunk where
  mK : Option (List Char × List Char)
  mL : Option (List Char × List Char)
  mP : Option (List Char × List Char)
  mR : Option (List Char × List Char)
  mG : Option (List Char × List Char × List Char × List Char)

/-- Parsing of one matched pair of numeric strings, as in
`parse_float(m.group(1)), parse_float(m.group(2))` (parse_calculations.py
lines 49, 53, 57, 61): a malformed string raises `ValueError`, modelled by
`Except.error ()`. -/
def parsePair (sp : List Char × List Char) : Except Unit (ℚ × ℚ) :=
  match parse_float sp.1, parse_float sp.2 with
  | some a, some b => .ok (a, b)
  | _, _ => .error ()

/-- Parsing of the four matched strings of the `G1, G2, G, D` line
(parse_calculations.py lines 65-70). -/
def parseQuad (gp : List Char × List Char × List Char × List Char) :
    Except Unit (ℚ × ℚ × ℚ × ℚ) :=
  match parse_float gp.1, parse_float gp.2.1, parse_float gp.2.2.1,
      parse_float gp.2.2.2 with
  | some a, some b, some g, some d => .ok (a, b, g, d)
  | _, _, _, _ => .error ()

/-- Whether every numeric string the regexes matched in the chunk is a
well-formed decimal (the condition under which `parse_block` cannot raise). -/
def parseOk {α : Type} (e : Except Unit α) : Bool :=
  match e with
  | .ok _ => true
  | .error _ => false

/-- All present field groups of the chunk carry well-formed numeric
strings. -/
def chunkStringsOk (c : Chunk) : Bool :=
  (match c.mK with | none => true | some kp => parseOk (parsePair kp)) &&
  ((match c.mL with | none => true | some lp => parseOk (parsePair lp)) &&
  ((match c.mP with | none => true | some pp => parseOk (parsePair pp)) &&
  ((match c.mR with | none => true | some rp => parseOk (parsePair rp)) &&
  (match c.mG with | none => true | some gp => parseOk (parseQuad gp)))))

/-- Function `parse_block` (parse_calculations.py lines 43-75): each missing
field group returns `None` — modelled `.ok none` — after the groups found so
far have already been parsed; a malformed matched numeric string makes
`float` raise `ValueError` — modelled `.error ()` — exactly where the source
calls `parse_float`, i.e. group by group in source order. -/
def parse_block (c : Chunk) : Except Unit (Option MeasurementBlock) :=
  match c.mK with
  | none => .ok none
  | some kp =>
    match parsePair kp with
    | .error _ => .error ()
    | .ok (k1, k2) =>
      match c.mL with
      | none => .ok none
      | some lp =>
        match parsePair lp with
        | .error _ => .error ()
        | .ok (l1, l2) =>
          match c.mP with
          | none => .ok none
          | some pp =>
            match parsePair pp with
            | .error _ => .error ()
            | .ok (p1, p2) =>
              match c.mR with
              | none => .ok none
              | some rp =>
                match parsePair rp with
                | .error _ => .error ()
                | .ok (r1, r2) =>
                  match c.mG with
                  | none => .ok none
                  | some gp =>
                    match parseQuad gp with
                    | .error _ => .error ()
                    | .ok (q1, q2, q3, q4) =>
                      .ok (some { K1 := k1, K2 := k2, L1 := l1, L2 := l2,
                                  P1 := p1, P2 := p2, R1 := r1, R2 := r2,
                                  G1 := q1, G2 := q2, G := q3, D := q4 })

/-- One iteration of the chunk loop in `main` (parse_calculations.py
lines 104-113): a chunk that fails to parse is skipped, a parsed block is
appended with `block_index = len(blocks) + 1`, and an uncaught `ValueError`
from `parse_block` aborts the whole run. -/
def mainStep (blocks : List (ℕ × MeasurementBlock)) (c : Chunk) :
    Except Unit (List (ℕ × MeasurementBlock)) :=
  match parse_block c with
  | .error _ => .error ()
  | .ok none => .ok blocks
  | .ok (some b) => .ok (blocks ++ [(blocks.length + 1, b)])

/-- The chunk loop of `main` (parse_calculations.py lines 101-113), producing
the indexed blocks in order, or aborting on the first malformed numeric
string. -/
def mainBlocks (chunks : List Chunk) : Except Unit (List (ℕ × MeasurementBlock)) :=
  chunks.foldlM mainStep []

/-! ### Concrete records used in counterexamples and witnesses -/

/-- The end-to-end scenario block of the specification: raw fields
`K1=0.8, K2=0.79, P1=1.0, P2=1.1, L1=0.5, L2=0.6, R1=1.0, R2=1.0` with stated
`G1=1.0875, G2=1.2, G=0.1125, D=9.667`. -/
def scenarioBlock : MeasurementBlock :=
  { K1 := 0.8, K2 := 0.79, L1 := 0.5, L2 := 0.6, P1 := 1, P2 := 1.1,
    R1 := 1, R2 := 1, G1 := 1.0875, G2 := 1.2, G := 0.1125, D := 9.667 }

/-- A block whose recomputed difference `G_check` is `10 ^ (-13)`: nonzero,
yet inside the near-zero band `|G_check| < 1e-12` where the verifier records
`NaN`. -/
def nearZeroBlock : MeasurementBlock :=
  { K1 := 1, K2 := 1, L1 := 1, L2 := 1 + 1 / 10 ^ 13, P1 := 1, P2 := 1,
    R1 := 1, R2 := 1, G1 := 2, G2 := 2, G := 0, D := 1 }

/-- A block on which every check passes exactly. -/
def cleanBlock : MeasurementBlock :=
  { K1 := 1, K2 := 1, L1 := 1, L2 := 2, P1 := 1, P2 := 1,
    R1 := 1, R2 := 1, G1 := 2, G2 := 3, G := 1, D := 2 }

/-- The verification record of `cleanBlock`. -/
def cleanResult : VerifyResult :=
  { G1_check := 2, G2_check := 3, G_check := 1, D_check := some 2,
    ok_G1 := true, ok_G2 := true, ok_G := true, ok_D := true, matched := true }

/-- A block with stated `G1 = 0` whose absolute `G1` test fails, so the
relative comparison divides by zero. -/
def zeroG1Block : MeasurementBlock :=
  { K1 := 1, K2 := 1, L1 := 1, L2 := 1, P1 := 1, P2 := 1,
    R1 := 1, R2 := 1, G1 := 0, G2 := 2, G := 0, D := 1 }

/-- A block with stated `G = 0`, exercising the truthiness guard of the `G`
check (its recomputed difference is also `0`, so `D_check` is `NaN`). -/
def zeroGBlock : MeasurementBlock :=
  { K1 := 1, K2 := 1, L1 := 1, L2 := 1, P1 := 1, P2 := 1,
    R1 := 1, R2 := 1, G1 := 2, G2 := 2, G := 0, D := 1 }

/-- The verification record of `zeroGBlock`. -/
def zeroGResult : VerifyResult :=
  { G1_check := 2, G2_check := 2, G_check := 0, D_check := none,
    ok_G1 := true, ok_G2 := true, ok_G := true, ok_D := false, matched := false }

/-- A candidate block sitting in positional slot 1 but far from every query
used in the witnesses. -/
def posBlock : CBlock := { block_index := 1, K1 := 5, K2 := 5, L1 := 5, L2 := 5 }

/-- A candidate block in slot 2 whose ratio fields are all `1`. -/
def nnBlock : CBlock := { block_index := 2, K1 := 1, K2 := 1, L1 := 1, L2 := 1 }

/-- First of two candidates at identical distance from the tie query. -/
def tieA : CBlock := { block_index := 3, K1 := 1, K2 := 1, L1 := 1, L2 := 1 }

/-- Second of two candidates at identical distance from the tie query. -/
def tieB : CBlock := { block_index := 4, K1 := 1, K2 := 1, L1 := 1, L2 := 1 }

/-- A chunk in which all five patterns match, with a `,` decimal separator in
one of the fields. -/
def sampleChunk : Chunk :=
  { mK := some (['1'], ['2']),
    mL := some (['0', '.', '5'], ['0', ',', '6']),
    mP := some (['1'], ['1']),
    mR := some (['1'], ['1']),
    mG := some (['1'], ['1'], ['1'], ['1']) }

/-- A chunk whose `K1` match is the regex-producible string `"."` (the
pattern `[\d.,]+` matches `"."` in a chunk such as `"K1: ., K2: 1"` after
backtracking) while every other group is present and well-formed: Python's
`float(".")` raises `ValueError`, so this chunk is neither extracted nor
silently skipped — it crashes the run. -/
def badChunk : Chunk :=
  { mK := some (['.'], ['1']),
    mL := some (['1'], ['1']),
    mP := some (['1'], ['1']),
    mR := some (['1'], ['1']),
    mG := some (['1'], ['1'], ['1'], ['1']) }

/-- The measurement block extracted from `sampleChunk`. -/
def sampleChunkBlock : MeasurementBlock :=
  { K1 := 1, K2 := 2, L1 := 1 / 2, L2 := 3 / 5, P1 := 1, P2 := 1,
    R1 := 1, R2 := 1, G1 := 1, G2 := 1, G := 1, D := 1 }

end AnalyzisExpertize

namespace AnalyzisExpertize

/-! ### Helper lemmas on the verifier -/

/-- Destructor: everything `verify_block` guarantees about a successfully
returned record. -/
theorem verify_block_ok {b : MeasurementBlock} {r : VerifyResult}
    (h : verify_block b = .ok r) :
    r.G1_check = g1_check b ∧ r.G2_check = g2_check b ∧ r.G_check = g_check b ∧
    r.D_check = d_check b ∧
    checkVal (g1_check b) b.G1 = .ok r.ok_G1 ∧
    checkVal (g2_check b) b.G2 = .ok r.ok_G2 ∧
    r.ok_G = checkG (g_check b) b.G ∧
    checkD (d_check b) b.D = .ok r.ok_D ∧
    r.matched = (r.ok_G1 && r.ok_G2 && r.ok_G && r.ok_D) := by
  unfold verify_block at h
  split at h
  · exact absurd h (by simp)
  · split at h
    · rename_i ok_g1 ok_g2 ok_d hg1 hg2 hd
      injection h with h
      subst h
      exact ⟨rfl, rfl, rfl, rfl, hg1, hg2, rfl, hd, rfl⟩
    · exact absurd h (by simp)

/-- For a positive stated value, a successful `checkVal` is exactly the dual
tolerance of the specification. -/
theorem checkVal_ok_pos {c s : ℚ} {v : Bool} (hs : 0 < s)
    (h : checkVal c s = .ok v) :
    v = true ↔ (|c - s| ≤ TOL_ABS ∨ |c - s| / s ≤ TOL_REL) := by
  unfold checkVal at h
  split at h
  · rename_i habs
    injection h with h
    subst h
    simp [habs]
  · split at h
    · exact absurd h (by simp)
    · rename_i habs hs0
      injection h with h
      subst h
      rw [decide_eq_true_eq, abs_div, abs_of_pos hs]
      exact ⟨fun hrel => Or.inr hrel, fun hor => hor.resolve_left habs⟩

/-- For a positive stated `G`, the guarded `checkG` is also exactly the dual
tolerance. -/
theorem checkG_pos {c s : ℚ} (hs : 0 < s) :
    checkG c s = true ↔ (|c - s| ≤ TOL_ABS ∨ |c - s| / s ≤ TOL_REL) := by
  unfold checkG
  split
  · rename_i habs
    simp [habs]
  · split
    · rename_i hs0
      exact absurd hs0 (ne_of_gt hs)
    · rename_i habs hs0
      rw [decide_eq_true_eq, abs_div, abs_of_pos hs]
      exact ⟨fun hrel => Or.inr hrel, fun hor => hor.resolve_left habs⟩

/-- With stated `G = 0` the truthiness guard reduces the `G` check to the
absolute test alone. -/
theorem checkG_zero (c : ℚ) : checkG c 0 = decide (|c - 0| ≤ TOL_ABS) := by
  unfold checkG
  split
  · rename_i habs
    rw [sub_zero] at habs
    simp [habs]
  · rename_i habs
    rw [sub_zero] at habs
    simp [habs, not_le.mp habs]

/-- With stated value `0` and a failing absolute test, the unguarded
comparison divides by zero. -/
theorem checkVal_zero_error {c : ℚ} (h : ¬ |c - 0| ≤ TOL_ABS) :
    checkVal c 0 = .error () := by
  unfold checkVal
  rw [if_neg h, if_pos rfl]

/-! ### Claim theorems on the Formula Verifier -/

/-- C1 counterexample: on `nearZeroBlock` the verifier succeeds with
`G_check = 10 ^ (-13) ≠ 0`, yet the recorded `D_check` is `NaN`, not
`G1 / G_check` — the claim's condition `|G_check| > 1e-12` does not govern
the code's near-zero band `|G_check| < 1e-12`, so a block with
`G_check ≠ 0` need not have `D_check = G1 / (G2_check - G1_check)`. -/
theorem d_check_nan_despite_nonzero_g_check :
    (verify_block nearZeroBlock).toOption.map VerifyResult.G_check = some (1 / 10 ^ 13) ∧
    (verify_block nearZeroBlock).toOption.map VerifyResult.D_check = some none ∧
    (1 / 10 ^ 13 : ℚ) ≠ 0 := by
  refine ⟨?_, ?_, by norm_num⟩ <;>
  · simp only [nearZeroBlock, verify_block, g1_check, g2_check, g_check, d_check,
      checkVal, checkG, checkD, TOL_ABS, TOL_REL]
    norm_num [abs_le, abs_lt, le_abs, lt_abs, Except.toOption]

/-- C1 (amended): for every block the verifier accepts, the recorded check
values satisfy `G1_check = K2/K1 + P2/P1`, `G2_check = L2/L1 + R2/R1`,
`G_check = G2_check - G1_check`, and `D_check = G1 / (G2_check - G1_check)`
exactly whenever `|G_check| ≥ 1e-12`, with `NaN` recorded whenever
`|G_check| < 1e-12`. -/
theorem verify_block_formula_fields (b : MeasurementBlock) (r : VerifyResult)
    (h : verify_block b = .ok r) :
    r.G1_check = b.K2 / b.K1 + b.P2 / b.P1 ∧
    r.G2_check = b.L2 / b.L1 + b.R2 / b.R1 ∧
    r.G_check = r.G2_check - r.G1_check ∧
    (|r.G_check| < 1 / 10 ^ 12 → r.D_check = none) ∧
    (1 / 10 ^ 12 ≤ |r.G_check| →
      r.D_check = some (b.G1 / (r.G2_check - r.G1_check))) := by
  obtain ⟨h1, h2, h3, h4, -, -, -, -, -⟩ := verify_block_ok h
  refine ⟨by rw [h1]; rfl, by rw [h2]; rfl, by rw [h3, h1, h2]; rfl, ?_, ?_⟩
  · intro hlt
    rw [h3] at hlt
    rw [h4]
    unfold d_check
    rw [if_pos hlt]
  · intro hge
    rw [h3] at hge
    rw [h4, h1, h2]
    unfold d_check
    rw [if_neg (not_lt.mpr hge)]
    rfl

/-- C1 witness: the amended theorem applied to `cleanBlock`. -/
theorem verify_block_formula_fields_witness :
    cleanResult.G1_check = cleanBlock.K2 / cleanBlock.K1 + cleanBlock.P2 / cleanBlock.P1 ∧
    cleanResult.G2_check = cleanBlock.L2 / cleanBlock.L1 + cleanBlock.R2 / cleanBlock.R1 ∧
    cleanResult.G_check = cleanResult.G2_check - cleanResult.G1_check ∧
    (|cleanResult.G_check| < 1 / 10 ^ 12 → cleanResult.D_check = none) ∧
    (1 / 10 ^ 12 ≤ |cleanResult.G_check| →
      cleanResult.D_check = some (cleanBlock.G1 / (cleanResult.G2_check - cleanResult.G1_check))) :=
  verify_block_formula_fields cleanBlock cleanResult (by
    simp only [cleanBlock, cleanResult, verify_block, g1_check, g2_check, g_check, d_check,
      checkVal, checkG, checkD, TOL_ABS, TOL_REL]
    norm_num [abs_le, abs_lt, le_abs, lt_abs])

/-- C2: for positive stated values, each individual check succeeds exactly
when the dual tolerance `|check - stated| ≤ 0.002 ∨ |check - stated| / stated
≤ 0.001` holds, the overall flag is the conjunction of the four checks, and
concretely `stated = 100.0, computed = 100.1` matches while
`stated = 100.0, computed = 100.1999` does not. -/
theorem verify_block_dual_tolerance (b : MeasurementBlock) (r : VerifyResult) (dc : ℚ)
    (h : verify_block b = .ok r) (hdc : r.D_check = some dc)
    (hG1 : 0 < b.G1) (hG2 : 0 < b.G2) (hG : 0 < b.G) (hD : 0 < b.D) :
    (r.ok_G1 = true ↔
      |r.G1_check - b.G1| ≤ TOL_ABS ∨ |r.G1_check - b.G1| / b.G1 ≤ TOL_REL) ∧
    (r.ok_G2 = true ↔
      |r.G2_check - b.G2| ≤ TOL_ABS ∨ |r.G2_check - b.G2| / b.G2 ≤ TOL_REL) ∧
    (r.ok_G = true ↔
      |r.G_check - b.G| ≤ TOL_ABS ∨ |r.G_check - b.G| / b.G ≤ TOL_REL) ∧
    (r.ok_D = true ↔ |dc - b.D| ≤ TOL_ABS ∨ |dc - b.D| / b.D ≤ TOL_REL) ∧
    r.matched = (r.ok_G1 && r.ok_G2 && r.ok_G && r.ok_D) ∧
    checkVal 100.1 100 = .ok true ∧ checkVal 100.1999 100 = .ok false := by
  obtain ⟨h1, h2, h3, h4, hv1, hv2, hg, hd, hm⟩ := verify_block_ok h
  refine ⟨?_, ?_, ?_, ?_, hm, ?_, ?_⟩
  · rw [h1]
    exact checkVal_ok_pos hG1 hv1
  · rw [h2]
    exact checkVal_ok_pos hG2 hv2
  · rw [h3, hg]
    exact checkG_pos hG
  · rw [h4] at hdc
    rw [hdc] at hd
    exact checkVal_ok_pos hD hd
  · simp only [checkVal, TOL_ABS, TOL_REL]
    norm_num [abs_le, abs_lt, le_abs, lt_abs]
  · simp only [checkVal, TOL_ABS, TOL_REL]
    norm_num [abs_le, abs_lt, le_abs, lt_abs]

/-- C2 witness: the dual-tolerance theorem applied to `cleanBlock`. -/
theorem verify_block_dual_tolerance_witness :
    (cleanResult.ok_G1 = true ↔
      |cleanResult.G1_check - cleanBlock.G1| ≤ TOL_ABS ∨
      |cleanResult.G1_check - cleanBlock.G1| / cleanBlock.G1 ≤ TOL_REL) ∧
    (cleanResult.ok_G2 = true ↔
      |cleanResult.G2_check - cleanBlock.G2| ≤ TOL_ABS ∨
      |cleanResult.G2_check - cleanBlock.G2| / cleanBlock.G2 ≤ TOL_REL) ∧
    (cleanResult.ok_G = true ↔
      |cleanResult.G_check - cleanBlock.G| ≤ TOL_ABS ∨
      |cleanResult.G_check - cleanBlock.G| / cleanBlock.G ≤ TOL_REL) ∧
    (cleanResult.ok_D = true ↔
      |(2 : ℚ) - cleanBlock.D| ≤ TOL_ABS ∨ |(2 : ℚ) - cleanBlock.D| / cleanBlock.D ≤ TOL_REL) ∧
    cleanResult.matched =
      (cleanResult.ok_G1 && cleanResult.ok_G2 && cleanResult.ok_G && cleanResult.ok_D) ∧
    checkVal 100.1 100 = .ok true ∧ checkVal 100.1999 100 = .ok false :=
  verify_block_dual_tolerance cleanBlock cleanResult 2
    (by
      simp only [cleanBlock, cleanResult, verify_block, g1_check, g2_check, g_check, d_check,
        checkVal, checkG, checkD, TOL_ABS, TOL_REL]
      norm_num [abs_le, abs_lt, le_abs, lt_abs])
    rfl (by norm_num [cleanBlock]) (by norm_num [cleanBlock])
    (by norm_num [cleanBlock]) (by norm_num [cleanBlock])

/-- C6 counterexample: on the specification's end-to-end scenario block the
`G1` check is false, not true — the recomputed `G1_check` is `2.0875`, a full
`1.0` away from the stated `G1 = 1.0875`. -/
theorem scenario_g1_check_fails :
    (verify_block scenarioBlock).toOption.map VerifyResult.ok_G1 = some false := by
  simp only [scenarioBlock, verify_block, g1_check, g2_check, g_check, d_check,
    checkVal, checkG, checkD, TOL_ABS, TOL_REL]
  norm_num [abs_le, abs_lt, le_abs, lt_abs, Except.toOption]

/-- C6 (amended): on the scenario block the verifier marks `ok_G` and `ok_D`
true but `ok_G1` and `ok_G2` false (computed `G1_check = 2.0875` and
`G2_check = 2.2` each differ from the stated values by `1.0`), so the block
as a whole does not match. -/
theorem scenario_check_outcomes :
    (verify_block scenarioBlock).toOption.map
      (fun r => (r.ok_G1, r.ok_G2, r.ok_G, r.ok_D, r.matched)) =
      some (false, false, true, true, false) := by
  simp only [scenarioBlock, verify_block, g1_check, g2_check, g_check, d_check,
    checkVal, checkG, checkD, TOL_ABS, TOL_REL]
  norm_num [abs_le, abs_lt, le_abs, lt_abs, Except.toOption]

/-- C10: with stated `G = 0` the `G` check reduces to the absolute test
alone; the shared comparison used for `G1`, `G2` and (through the `some`
branch of `checkD`) `D` divides by the stated value and errors on stated `0`
once the absolute test fails; and the concrete block `zeroG1Block`
(stated `G1 = 0`, `G1_check = 2`) makes `verify_block` raise instead of
reporting a mismatch. -/
theorem verify_block_zero_stated_guard :
    (∀ b r, verify_block b = .ok r → b.G = 0 →
      (r.ok_G = true ↔ |r.G_check - b.G| ≤ TOL_ABS)) ∧
    (∀ c : ℚ, ¬ |c - 0| ≤ TOL_ABS → checkVal c 0 = .error ()) ∧
    (∀ c : ℚ, checkG c 0 = decide (|c - 0| ≤ TOL_ABS)) ∧
    (∀ c s : ℚ, checkD (some c) s = checkVal c s) ∧
    verify_block zeroG1Block = .error () := by
  refine ⟨?_, fun c hc => checkVal_zero_error hc, checkG_zero, fun c s => rfl, ?_⟩
  · intro b r h hG0
    obtain ⟨-, -, h3, -, -, -, hg, -, -⟩ := verify_block_ok h
    rw [hg, hG0, checkG_zero, decide_eq_true_eq, h3]
  · simp only [zeroG1Block, verify_block, g1_check, g2_check, g_check, d_check,
      checkVal, checkG, checkD, TOL_ABS, TOL_REL]
    norm_num [abs_le, abs_lt, le_abs, lt_abs]

/-- C10 witness: the guard theorem applied to `zeroGBlock` (stated `G = 0`)
and to the concrete comparison value `2`. -/
theorem verify_block_zero_stated_guard_witness :
    (zeroGResult.ok_G = true ↔
      |zeroGResult.G_check - zeroGBlock.G| ≤ TOL_ABS) ∧
    checkVal 2 0 = .error () :=
  ⟨verify_block_zero_stated_guard.1 zeroGBlock zeroGResult
      (by
        simp only [zeroGBlock, zeroGResult, verify_block, g1_check, g2_check, g_check, d_check,
          checkVal, checkG, checkD, TOL_ABS, TOL_REL]
        norm_num [abs_le, abs_lt, le_abs, lt_abs])
      rfl,
    verify_block_zero_stated_guard.2.1 2 (by norm_num [TOL_ABS, abs_le])⟩

/-! ### Helper lemmas on the nearest-neighbour scan -/

/-- Unfolding equation: the first candidate always replaces the initial
`(None, inf)` state. -/
theorem bestStep_none (dist : CBlock → ℚ) (x : CBlock) :
    bestStep dist none x = some (x, dist x) := rfl

/-- Unfolding equation: a later candidate replaces the running best only on
a strictly smaller distance. -/
theorem bestStep_some (dist : CBlock → ℚ) (b : CBlock) (d : ℚ) (x : CBlock) :
    bestStep dist (some (b, d)) x =
      if dist x < d then some (x, dist x) else some (b, d) := rfl

/-- Folding `bestStep` from a `some` state always yields a `some` state. -/
theorem foldl_bestStep_some (dist : CBlock → ℚ) :
    ∀ (l : List CBlock) (p : CBlock × ℚ),
      ∃ q, l.foldl (bestStep dist) (some p) = some q := by
  intro l
  induction l with
  | nil => exact fun p => ⟨p, rfl⟩
  | cons x xs ih =>
    intro p
    obtain ⟨b, d⟩ := p
    rw [List.foldl_cons, bestStep_some]
    by_cases hlt : dist x < d
    · rw [if_pos hlt]
      exact ih _
    · rw [if_neg hlt]
      exact ih _

/-- Folding `bestStep` over candidates none of which beat the current best
leaves the state unchanged: improvement requires a strictly smaller
distance. -/
theorem foldl_bestStep_keep (dist : CBlock → ℚ) :
    ∀ (l : List CBlock) (b : CBlock) (d : ℚ), (∀ x ∈ l, d ≤ dist x) →
      l.foldl (bestStep dist) (some (b, d)) = some (b, d) := by
  intro l
  induction l with
  | nil => intro b d _; rfl
  | cons x xs ih =>
    intro b d hall
    rw [List.foldl_cons, bestStep_some,
      if_neg (not_lt.mpr (hall x (List.mem_cons_self x xs)))]
    exact ih b d (fun y hy => hall y (List.mem_cons_of_mem x hy))

/-- Invariant of the scan started from an arbitrary current best. -/
theorem foldl_bestStep_spec (dist : CBlock → ℚ) :
    ∀ (l : List CBlock) (b0 : CBlock) (d0 : ℚ) (b : CBlock) (d : ℚ),
      l.foldl (bestStep dist) (some (b0, d0)) = some (b, d) → d0 = dist b0 →
      d = dist b ∧ (b = b0 ∨ b ∈ l) ∧ d ≤ d0 ∧ ∀ x ∈ l, d ≤ dist x := by
  intro l
  induction l with
  | nil =>
    intro b0 d0 b d h h0
    rw [List.foldl_nil] at h
    injection h with h
    injection h with hb hd
    subst hb
    subst hd
    exact ⟨h0, Or.inl rfl, le_refl _, fun y hy => absurd hy (List.not_mem_nil y)⟩
  | cons x xs ih =>
    intro b0 d0 b d h h0
    rw [List.foldl_cons, bestStep_some] at h
    by_cases hlt : dist x < d0
    · rw [if_pos hlt] at h
      obtain ⟨hd, hmem, hle, hall⟩ := ih x (dist x) b d h rfl
      refine ⟨hd, ?_, ?_, ?_⟩
      · rcases hmem with h1 | h1
        · exact Or.inr (h1 ▸ List.mem_cons_self x xs)
        · exact Or.inr (List.mem_cons_of_mem x h1)
      · exact le_of_lt (lt_of_le_of_lt hle hlt)
      · intro y hy
        rcases List.mem_cons.mp hy with h1 | h1
        · exact h1 ▸ hle
        · exact hall y h1
    · rw [if_neg hlt] at h
      obtain ⟨hd, hmem, hle, hall⟩ := ih b0 d0 b d h h0
      refine ⟨hd, ?_, hle, ?_⟩
      · rcases hmem with h1 | h1
        · exact Or.inl h1
        · exact Or.inr (List.mem_cons_of_mem x h1)
      · intro y hy
        rcases List.mem_cons.mp hy with h1 | h1
        · exact h1 ▸ le_trans hle (not_lt.mp hlt)
        · exact hall y h1

/-- A nonempty candidate list always produces a best pair. -/
theorem bestFold_isSome (dist : CBlock → ℚ) (blocks : List CBlock)
    (hne : blocks ≠ []) : ∃ b d, bestFold dist blocks = some (b, d) := by
  cases blocks with
  | nil => exact absurd rfl hne
  | cons x xs =>
    unfold bestFold
    rw [List.foldl_cons]
    obtain ⟨q, hq⟩ := foldl_bestStep_some dist xs (x, dist x)
    exact ⟨q.1, q.2, hq⟩

/-- The best pair returned by the scan is a member attaining the global
minimum distance. -/
theorem bestFold_spec (dist : CBlock → ℚ) (blocks : List CBlock) (b : CBlock)
    (d : ℚ) (h : bestFold dist blocks = some (b, d)) :
    d = dist b ∧ b ∈ blocks ∧ ∀ x ∈ blocks, d ≤ dist x := by
  cases blocks with
  | nil => exact absurd h (by simp [bestFold])
  | cons x xs =>
    unfold bestFold at h
    rw [List.foldl_cons] at h
    obtain ⟨hd, hmem, hle, hall⟩ := foldl_bestStep_spec dist xs x (dist x) b d h rfl
    refine ⟨hd, ?_, ?_⟩
    · rcases hmem with h1 | h1
      · exact h1 ▸ List.mem_cons_self x xs
      · exact List.mem_cons_of_mem x h1
    · intro y hy
      rcases List.mem_cons.mp hy with h1 | h1
      · exact h1 ▸ hle
      · exact hall y h1

/-- When every candidate before `b` is strictly farther and every candidate
after `b` no closer, the scan settles on `b` — the earliest minimiser. -/
theorem bestFold_first (dist : CBlock → ℚ) (l1 l2 : List CBlock) (b : CBlock)
    (h1 : ∀ x ∈ l1, dist b < dist x) (h2 : ∀ x ∈ l2, dist b ≤ dist x) :
    bestFold dist (l1 ++ b :: l2) = some (b, dist b) := by
  unfold bestFold
  rw [List.foldl_append]
  cases hl : l1.foldl (bestStep dist) none with
  | none =>
    rw [List.foldl_cons]
    exact foldl_bestStep_keep dist l2 b (dist b) h2
  | some p =>
    obtain ⟨b1, d1⟩ := p
    obtain ⟨hd1, hmem1, -⟩ := bestFold_spec dist l1 b1 d1 hl
    have hlt : dist b < d1 := by
      rw [hd1]
      exact h1 b1 hmem1
    rw [List.foldl_cons, bestStep_some, if_pos hlt]
    exact foldl_bestStep_keep dist l2 b (dist b) h2

/-- Shared specification of the accept-if-within-tolerance wrapper around the
scan, instantiated by both `find_block_by_k1_k2` and `find_block_by_l1_l2`. -/
theorem acceptMin_spec (dist : CBlock → ℚ) (tol : ℚ) (blocks : List CBlock)
    (hne : blocks ≠ []) (res : Option CBlock)
    (hres : res = (match bestFold dist blocks with
      | some (b, d) => if d ≤ tol then some b else none
      | none => none)) :
    (∀ b, res = some b → b ∈ blocks ∧ dist b ≤ tol ∧ ∀ x ∈ blocks, dist b ≤ dist x) ∧
    (res = none ↔ ∀ x ∈ blocks, tol < dist x) := by
  obtain ⟨bm, dm, hbf⟩ := bestFold_isSome dist blocks hne
  obtain ⟨hdm, hmem, hall⟩ := bestFold_spec dist blocks bm dm hbf
  rw [hbf] at hres
  have hres2 : res = if dm ≤ tol then some bm else none := hres
  constructor
  · intro b hb
    rw [hres2] at hb
    split at hb
    · rename_i htol
      injection hb with hb
      subst hb
      refine ⟨hmem, ?_, ?_⟩
      · rw [← hdm]
        exact htol
      · intro x hx
        rw [← hdm]
        exact hall x hx
    · exact absurd hb (by simp)
  · rw [hres2]
    split
    · rename_i htol
      constructor
      · intro h
        exact absurd h (by simp)
      · intro hfar
        exact absurd htol (by
          rw [hdm]
          exact not_le.mpr (hfar bm hmem))
    · rename_i htol
      exact ⟨fun _ x hx => lt_of_lt_of_le (not_le.mp htol) (hall x hx), fun _ => rfl⟩

/-! ### Claim theorems on the Cross-Source Matcher -/

/-- C3: the positional tier always wins when its slot exists — for any query
values whatsoever the positional block is returned tagged `by_index`, with no
distance computed; the nearest-neighbour tiers are consulted only when the
slot is absent. -/
theorem matchBlock_positional_priority (blocks : List CBlock) (page graph_id : ℤ)
    (K1 K2 : ℚ) :
    (∀ b, blocks_by_idx blocks (block_index_from_page_graph page graph_id) = some b →
      matchBlock blocks page graph_id K1 K2 = some (b, MatchTier.by_index)) ∧
    (blocks_by_idx blocks (block_index_from_page_graph page graph_id) = none →
      (∀ b, find_block_by_k1_k2 blocks K1 K2 = some b →
        matchBlock blocks page graph_id K1 K2 = some (b, MatchTier.by_k1_k2)) ∧
      (find_block_by_k1_k2 blocks K1 K2 = none →
        matchBlock blocks page graph_id K1 K2 =
          (find_block_by_l1_l2 blocks K1 K2).map (fun b => (b, MatchTier.by_l1_l2)))) := by
  refine ⟨?_, fun hidx => ⟨?_, ?_⟩⟩
  · intro b hb
    unfold matchBlock
    rw [hb]
  · intro b hb
    unfold matchBlock
    rw [‹blocks_by_idx blocks (block_index_from_page_graph page graph_id) = none›, hb]
  · intro hk
    unfold matchBlock
    rw [‹blocks_by_idx blocks (block_index_from_page_graph page graph_id) = none›, hk]
    cases hl : find_block_by_l1_l2 blocks K1 K2 <;> rfl

/-- C3 witness: `posBlock` occupies positional slot 1 while `nnBlock` is at
`(K1, K2)` distance `0` from the query; the matcher still returns `posBlock`
tagged `by_index`. -/
theorem matchBlock_positional_priority_witness :
    matchBlock [posBlock, nnBlock] 1 1 1 1 = some (posBlock, MatchTier.by_index) :=
  (matchBlock_positional_priority [posBlock, nnBlock] 1 1 1 1).1 posBlock rfl

/-- C4: over a nonempty candidate list, any block returned by the primary
nearest-neighbour tier is a global minimiser of the L1 distance
`|b.K1 - K1| + |b.K2 - K2|` lying within `K_MATCH_TOLERANCE = 0.001`, and the
tier returns no match exactly when every candidate — including the nearest —
is farther than the tolerance. -/
theorem find_block_by_k1_k2_min_spec (blocks : List CBlock) (K1 K2 : ℚ)
    (hne : blocks ≠ []) :
    (∀ b, find_block_by_k1_k2 blocks K1 K2 = some b →
      b ∈ blocks ∧ |b.K1 - K1| + |b.K2 - K2| ≤ K_MATCH_TOLERANCE ∧
      ∀ x ∈ blocks, |b.K1 - K1| + |b.K2 - K2| ≤ |x.K1 - K1| + |x.K2 - K2|) ∧
    (find_block_by_k1_k2 blocks K1 K2 = none ↔
      ∀ x ∈ blocks, K_MATCH_TOLERANCE < |x.K1 - K1| + |x.K2 - K2|) :=
  acceptMin_spec (fun b => |b.K1 - K1| + |b.K2 - K2|) K_MATCH_TOLERANCE blocks hne
    (find_block_by_k1_k2 blocks K1 K2) rfl

/-- C4 witness: the single candidate `nnBlock` sits at distance `0.01` from
the query, ten times the tolerance, and the tier reports no match. -/
theorem find_block_by_k1_k2_min_spec_witness :
    find_block_by_k1_k2 [nnBlock] (101 / 100) 1 = none :=
  (find_block_by_k1_k2_min_spec [nnBlock] (101 / 100) 1 (by simp)).2.mpr (by
    intro x hx
    rw [List.mem_singleton] at hx
    subst hx
    norm_num [nnBlock, K_MATCH_TOLERANCE, abs_of_nonpos, abs_of_nonneg])

/-- C8: when the positional slot is absent and the `(K1, K2)` tier fails,
the matcher falls back to `find_block_by_l1_l2`, which minimises the L1
distance on the candidates' `L1`, `L2` fields (against the same query pair
the caller passes) and accepts only within the looser tolerance `0.02`; any
match produced in this situation carries the distinct tag `by_l1_l2`. -/
theorem matchBlock_fallback_l1_l2 (blocks : List CBlock) (page graph_id : ℤ)
    (K1 K2 : ℚ)
    (hidx : blocks_by_idx blocks (block_index_from_page_graph page graph_id) = none)
    (hk : find_block_by_k1_k2 blocks K1 K2 = none) :
    matchBlock blocks page graph_id K1 K2 =
      (find_block_by_l1_l2 blocks K1 K2).map (fun b => (b, MatchTier.by_l1_l2)) ∧
    (∀ b, find_block_by_l1_l2 blocks K1 K2 = some b →
      b ∈ blocks ∧ |b.L1 - K1| + |b.L2 - K2| ≤ 2 / 100 ∧
      ∀ x ∈ blocks, |b.L1 - K1| + |b.L2 - K2| ≤ |x.L1 - K1| + |x.L2 - K2|) ∧
    (blocks ≠ [] →
      (find_block_by_l1_l2 blocks K1 K2 = none ↔
        ∀ x ∈ blocks, 2 / 100 < |x.L1 - K1| + |x.L2 - K2|)) ∧
    (∀ p, matchBlock blocks page graph_id K1 K2 = some p →
      p.2 = MatchTier.by_l1_l2) := by
  have hmain : matchBlock blocks page graph_id K1 K2 =
      (find_block_by_l1_l2 blocks K1 K2).map (fun b => (b, MatchTier.by_l1_l2)) := by
    unfold matchBlock
    rw [hidx, hk]
    cases hl : find_block_by_l1_l2 blocks K1 K2 <;> rfl
  refine ⟨hmain, ?_, ?_, ?_⟩
  · intro b hb
    exact (acceptMin_spec (fun x => |x.L1 - K1| + |x.L2 - K2|) (2 / 100) blocks
      (by
        intro hemp
        rw [hemp] at hb
        exact absurd hb (by simp [find_block_by_l1_l2, bestFold]))
      (find_block_by_l1_l2 blocks K1 K2) rfl).1 b hb
  · intro hne
    exact (acceptMin_spec (fun x => |x.L1 - K1| + |x.L2 - K2|) (2 / 100) blocks hne
      (find_block_by_l1_l2 blocks K1 K2) rfl).2
  · intro p hp
    rw [hmain] at hp
    cases hl : find_block_by_l1_l2 blocks K1 K2 with
    | none =>
      rw [hl] at hp
      exact absurd hp (by simp)
    | some b =>
      rw [hl] at hp
      injection hp with hp
      rw [← hp]

/-- C8 witness: with an empty positional slot and a query far from every
`(K1, K2)` pair but within `0.02` of `nnBlock`'s `(L1, L2)` pair, the
fallback returns `nnBlock` tagged `by_l1_l2`. -/
theorem matchBlock_fallback_l1_l2_witness :
    matchBlock [posBlock, nnBlock] 5 1 (101 / 100) 1 =
      (find_block_by_l1_l2 [posBlock, nnBlock] (101 / 100) 1).map
        (fun b => (b, MatchTier.by_l1_l2)) :=
  (matchBlock_fallback_l1_l2 [posBlock, nnBlock] 5 1 (101 / 100) 1 rfl (by
    exact (find_block_by_k1_k2_min_spec [posBlock, nnBlock] (101 / 100) 1
      (by simp)).2.mpr (by
        intro x hx
        rcases List.mem_cons.mp hx with h1 | h1
        · subst h1
          norm_num [posBlock, K_MATCH_TOLERANCE, abs_of_nonpos, abs_of_nonneg]
        · rw [List.mem_singleton] at h1
          subst h1
          norm_num [nnBlock, K_MATCH_TOLERANCE, abs_of_nonpos, abs_of_nonneg]))).1

/-- C9: ties in the nearest-neighbour tiers resolve to the earliest block in
document order — in each tier independently, a candidate list splitting as
`l1 ++ b :: l2` with every earlier candidate strictly farther and every later
candidate no closer (which is how the first minimiser of any tie sits in its
list) makes the scan return `b`, because the running minimum is replaced only
on a strictly smaller distance. -/
theorem find_block_tie_earliest :
    (∀ (l1 l2 : List CBlock) (b : CBlock) (K1 K2 : ℚ),
      (∀ x ∈ l1, |b.K1 - K1| + |b.K2 - K2| < |x.K1 - K1| + |x.K2 - K2|) →
      (∀ x ∈ l2, |b.K1 - K1| + |b.K2 - K2| ≤ |x.K1 - K1| + |x.K2 - K2|) →
      |b.K1 - K1| + |b.K2 - K2| ≤ K_MATCH_TOLERANCE →
      find_block_by_k1_k2 (l1 ++ b :: l2) K1 K2 = some b) ∧
    (∀ (l1 l2 : List CBlock) (b : CBlock) (L1 L2 : ℚ),
      (∀ x ∈ l1, |b.L1 - L1| + |b.L2 - L2| < |x.L1 - L1| + |x.L2 - L2|) →
      (∀ x ∈ l2, |b.L1 - L1| + |b.L2 - L2| ≤ |x.L1 - L1| + |x.L2 - L2|) →
      |b.L1 - L1| + |b.L2 - L2| ≤ 2 / 100 →
      find_block_by_l1_l2 (l1 ++ b :: l2) L1 L2 = some b) := by
  constructor
  · intro l1 l2 b K1 K2 hk1 hk2 hktol
    unfold find_block_by_k1_k2
    rw [bestFold_first (fun x => |x.K1 - K1| + |x.K2 - K2|) l1 l2 b hk1 hk2]
    show (if |b.K1 - K1| + |b.K2 - K2| ≤ K_MATCH_TOLERANCE then some b else none) = some b
    rw [if_pos hktol]
  · intro l1 l2 b L1 L2 hl1 hl2 hltol
    unfold find_block_by_l1_l2
    rw [bestFold_first (fun x => |x.L1 - L1| + |x.L2 - L2|) l1 l2 b hl1 hl2]
    show (if |b.L1 - L1| + |b.L2 - L2| ≤ 2 / 100 then some b else none) = some b
    rw [if_pos hltol]

/-- C9 witness: `tieA` and `tieB` sit at identical distance `0` from the
query; each tier, instantiated separately, returns `tieA`, the earlier of
the two. -/
theorem find_block_tie_earliest_witness :
    find_block_by_k1_k2 [tieA, tieB] 1 1 = some tieA ∧
    find_block_by_l1_l2 [tieA, tieB] 1 1 = some tieA :=
  ⟨find_block_tie_earliest.1 [] [tieB] tieA 1 1
    (by simp) (by
      intro x hx
      rw [List.mem_singleton] at hx
      subst hx
      norm_num [tieA, tieB])
    (by norm_num [tieA, K_MATCH_TOLERANCE]),
   find_block_tie_earliest.2 [] [tieB] tieA 1 1
    (by simp) (by
      intro x hx
      rw [List.mem_singleton] at hx
      subst hx
      norm_num [tieA, tieB])
    (by norm_num [tieA])⟩

/-! ### Helper lemmas on the histogram -/

/-- Closed form of the bin edges: `bins[i] = 56 + i/4`. -/
theorem bins_getD_eq (i : ℕ) (hi : i < 9) : bins.getD i (0:ℚ) = 56 + (i : ℚ) / 4 := by
  interval_cases i
  · rw [show bins.getD 0 (0:ℚ) = 56 from rfl]
    norm_num
  · rw [show bins.getD 1 (0:ℚ) = 56.25 from rfl]
    norm_num
  · rw [show bins.getD 2 (0:ℚ) = 56.5 from rfl]
    norm_num
  · rw [show bins.getD 3 (0:ℚ) = 56.75 from rfl]
    norm_num
  · rw [show bins.getD 4 (0:ℚ) = 57 from rfl]
    norm_num
  · rw [show bins.getD 5 (0:ℚ) = 57.25 from rfl]
    norm_num
  · rw [show bins.getD 6 (0:ℚ) = 57.5 from rfl]
    norm_num
  · rw [show bins.getD 7 (0:ℚ) = 57.75 from rfl]
    norm_num
  · rw [show bins.getD 8 (0:ℚ) = 58 from rfl]
    norm_num

/-- Any assigned bin index is one of the eight bins. -/
theorem binOf_lt {d : ℚ} {i : ℕ} (h : binOf d = some i) : i < 8 := by
  unfold binOf at h
  split at h
  · rename_i j hj
    injection h with h
    subst h
    exact List.mem_range.mp (List.mem_of_find?_eq_some hj)
  · split at h
    · injection h with h
      subst h
      decide
    · exact absurd h (by simp)

/-- A sample below the first edge is assigned no bin at all. -/
theorem binOf_none_of_lt {d : ℚ} (hd : d < 56) : binOf d = none := by
  unfold binOf
  have hfind : (List.range (bins.length - 1)).find?
      (fun i => decide (bins.getD i 0 ≤ d ∧ d < bins.getD (i + 1) 0)) = none := by
    rw [List.find?_eq_none]
    intro i hi
    simp only [decide_eq_true_eq, not_and]
    intro h1
    exfalso
    have hi8 : i < 8 := List.mem_range.mp hi
    rw [bins_getD_eq i (by omega)] at h1
    have h0 : (0:ℚ) ≤ (i:ℚ) / 4 := by positivity
    linarith
  rw [hfind, if_neg (show ¬ (bins.getD (bins.length - 1) (0:ℚ) ≤ d) from by
    rw [show bins.getD (bins.length - 1) (0:ℚ) = 58 from rfl]
    intro hge
    linarith)]

/-- A sample at or above the last edge lands in the last bin. -/
theorem binOf_last {d : ℚ} (hd : 58 ≤ d) : binOf d = some 7 := by
  unfold binOf
  have hfind : (List.range (bins.length - 1)).find?
      (fun i => decide (bins.getD i 0 ≤ d ∧ d < bins.getD (i + 1) 0)) = none := by
    rw [List.find?_eq_none]
    intro i hi
    simp only [decide_eq_true_eq, not_and]
    intro h1
    have hi8 : i < 8 := List.mem_range.mp hi
    rw [bins_getD_eq (i + 1) (by omega)]
    push_cast
    intro h2
    have hile : (i:ℚ) ≤ 7 := by exact_mod_cast Nat.le_of_lt_succ hi8
    linarith
  rw [hfind, if_pos (show bins.getD (bins.length - 1) (0:ℚ) ≤ d from by
    rw [show bins.getD (bins.length - 1) (0:ℚ) = 58 from rfl]
    exact hd)]
  rfl

/-- A sample assigned to bin `i` below the last edge lies in
`[bins[i], bins[i+1])`. -/
theorem binOf_mem {d : ℚ} {i : ℕ} (h : binOf d = some i) (hd : d < 58) :
    bins.getD i 0 ≤ d ∧ d < bins.getD (i + 1) 0 := by
  unfold binOf at h
  split at h
  · rename_i j hj
    injection h with h
    subst h
    have hp := List.find?_some hj
    rwa [decide_eq_true_eq] at hp
  · split at h
    · rename_i hge
      exact absurd (show (58:ℚ) ≤ d from hge) (not_le.mpr hd)
    · exact absurd h (by simp)

/-- Every sample at or above the first edge receives a bin: for `d < 58` the
index `⌊4d⌋ - 224` satisfies the first-matching-bin search, and `d ≥ 58`
takes the catch-all branch. -/
theorem binOf_isSome_of_ge {d : ℚ} (hd : 56 ≤ d) : ∃ i, binOf d = some i := by
  unfold binOf
  cases hfind : (List.range (bins.length - 1)).find?
      (fun i => decide (bins.getD i 0 ≤ d ∧ d < bins.getD (i + 1) 0)) with
  | some j => exact ⟨j, rfl⟩
  | none =>
    by_cases h58 : bins.getD (bins.length - 1) (0:ℚ) ≤ d
    · exact ⟨bins.length - 2, by rw [if_pos h58]⟩
    · exfalso
      have h58q : d < 58 := not_le.mp h58
      rw [List.find?_eq_none] at hfind
      have hnl : ((⌊4 * d⌋ : ℤ) : ℚ) ≤ 4 * d := Int.floor_le _
      have hnu : 4 * d < (⌊4 * d⌋ : ℤ) + 1 := Int.lt_floor_add_one _
      have h224 : 224 ≤ ⌊4 * d⌋ := by
        apply Int.le_floor.mpr
        push_cast
        linarith
      have h231 : ⌊4 * d⌋ < 232 := by
        apply Int.floor_lt.mpr
        push_cast
        linarith
      obtain ⟨i, hi⟩ : ∃ i : ℕ, (i:ℤ) = ⌊4 * d⌋ - 224 :=
        ⟨(⌊4 * d⌋ - 224).toNat, Int.toNat_of_nonneg (by omega)⟩
      have hi8 : i < 8 := by omega
      refine hfind i (List.mem_range.mpr hi8) ?_
      rw [decide_eq_true_eq, bins_getD_eq i (by omega), bins_getD_eq (i + 1) (by omega)]
      have hiq : (i : ℚ) = ((⌊4 * d⌋ : ℤ) : ℚ) - 224 := by exact_mod_cast hi
      have hnuq : 4 * d < ((⌊4 * d⌋ : ℤ) : ℚ) + 1 := by exact_mod_cast hnu
      constructor
      · linarith
      · push_cast
        linarith

/-- Incrementing an in-range cell increments the total by one. -/
theorem sum_set_getD_add_one : ∀ (h : List ℕ) (i : ℕ), i < h.length →
    (h.set i (h.getD i 0 + 1)).sum = h.sum + 1 := by
  intro h
  induction h with
  | nil =>
    intro i hi
    exact absurd hi (by simp)
  | cons a t ih =>
    intro i hi
    cases i with
    | zero =>
      simp only [List.set_cons_zero, List.getD_cons_zero, List.sum_cons]
      omega
    | succ n =>
      have hn : n < t.length := by simpa using hi
      simp only [List.set_cons_succ, List.getD_cons_succ, List.sum_cons, ih n hn]
      omega

/-- One histogram step never changes the number of bins. -/
theorem histStep_length (h : List ℕ) (d : ℚ) : (histStep h d).length = h.length := by
  unfold histStep
  split
  · exact List.length_set ..
  · rfl

/-- Invariant of the histogram fold: only samples at or above the first edge
are counted. -/
theorem histFold_sum : ∀ (samples : List ℚ) (h : List ℕ), h.length = 8 →
    (samples.foldl histStep h).sum =
      h.sum + (samples.filter (fun d => decide ((56:ℚ) ≤ d))).length := by
  intro samples
  induction samples with
  | nil =>
    intro h _
    simp
  | cons d rest ih =>
    intro h hlen
    rw [List.foldl_cons]
    by_cases h56 : (56:ℚ) ≤ d
    · obtain ⟨i, hbin⟩ := binOf_isSome_of_ge h56
      have hi8 : i < 8 := binOf_lt hbin
      have hstep : histStep h d = h.set i (h.getD i 0 + 1) := by
        unfold histStep
        rw [hbin]
      rw [ih (histStep h d) (by rw [histStep_length]; exact hlen), hstep,
        sum_set_getD_add_one h i (by omega), List.filter_cons,
        if_pos (decide_eq_true h56)]
      simp only [List.length_cons]
      omega
    · have hstep : histStep h d = h := by
        unfold histStep
        rw [binOf_none_of_lt (not_le.mp h56)]
      rw [hstep, ih h hlen, List.filter_cons,
        if_neg (by simpa using h56)]

/-! ### Claim theorems on the Aggregator histogram -/

/-- C5 counterexample: the sample `55.0` lies below the first edge `56.0`;
the `for`-`else` of stats_d.py only catches `d >= bins[-1]`, so the sample is
counted in no bin and the histogram total is `0`, not `1`. -/
theorem histLoop_drops_below_first_edge :
    (histLoop [(55 : ℚ)]).sum ≠ [(55 : ℚ)].length := by
  have h55 : binOf (55:ℚ) = none := binOf_none_of_lt (by norm_num)
  unfold histLoop
  rw [List.foldl_cons, List.foldl_nil,
    show histStep (List.replicate (bins.length - 1) 0) 55 =
        List.replicate (bins.length - 1) 0 from by
      unfold histStep
      rw [h55]]
  simp [List.sum_replicate]

/-- C5 (amended): each sample at or above the first edge goes to the first
bin `[edge[i], edge[i+1])` containing it, samples at or above the last edge
go to the last bin, and the sum of the bin counts equals the number of input
samples at or above the first edge `56.0` — samples below it are silently
dropped, so the total equals the full sample count only when no sample is
below `56.0`. -/
theorem histLoop_sum_spec :
    (∀ samples : List ℚ, (histLoop samples).sum =
      (samples.filter (fun d => decide ((56:ℚ) ≤ d))).length) ∧
    (∀ d : ℚ, d < 56 → binOf d = none) ∧
    (∀ d : ℚ, 58 ≤ d → binOf d = some 7) ∧
    (∀ (d : ℚ) (i : ℕ), binOf d = some i → d < 58 →
      bins.getD i 0 ≤ d ∧ d < bins.getD (i + 1) 0) := by
  refine ⟨?_, fun d hd => binOf_none_of_lt hd, fun d hd => binOf_last hd,
    fun d i h hd => binOf_mem h hd⟩
  intro samples
  have h := histFold_sum samples (List.replicate (bins.length - 1) 0) rfl
  unfold histLoop
  rw [h]
  simp [List.sum_replicate]

/-- C5 witness: the spec theorem applied to the samples `55, 56, 100` (one
dropped, one in the first bin, one in the catch-all last bin) and to the
concrete bin assignments of `55`, `100` and `56`. -/
theorem histLoop_sum_spec_witness :
    (histLoop [(55:ℚ), 56, 100]).sum =
      ([(55:ℚ), 56, 100].filter (fun d => decide ((56:ℚ) ≤ d))).length ∧
    binOf (55:ℚ) = none ∧ binOf (100:ℚ) = some 7 ∧
    (bins.getD 0 (0:ℚ) ≤ 56 ∧ (56:ℚ) < bins.getD (0 + 1) 0) :=
  ⟨histLoop_sum_spec.1 [55, 56, 100],
   histLoop_sum_spec.2.1 55 (by norm_num),
   histLoop_sum_spec.2.2.1 100 (by norm_num),
   histLoop_sum_spec.2.2.2 56 0
     (by
       unfold binOf
       rw [show List.range (bins.length - 1) = 0 :: [1, 2, 3, 4, 5, 6, 7] from rfl,
         List.find?_cons_of_pos _ (by
           rw [show bins.getD 0 (0:ℚ) = 56 from rfl,
             show bins.getD (0 + 1) (0:ℚ) = 56.25 from rfl]
           norm_num)])
     (by norm_num)⟩

/-! ### Helper lemmas on the record extractor -/

/-- A block returned by `parse_block` needs all five field groups present. -/
theorem parse_block_ok_some {c : Chunk} {b : MeasurementBlock}
    (h : parse_block c = .ok (some b)) :
    c.mK.isSome ∧ c.mL.isSome ∧ c.mP.isSome ∧ c.mR.isSome ∧ c.mG.isSome := by
  rcases c with ⟨k, l, p, r, g⟩
  cases k with
  | none => exact absurd h (by simp [parse_block])
  | some kp =>
    cases hkp : parsePair kp with
    | error e => exact absurd h (by simp [parse_block, hkp])
    | ok kq =>
      obtain ⟨k1, k2⟩ := kq
      cases l with
      | none => exact absurd h (by simp [parse_block, hkp])
      | some lp =>
        cases hlp : parsePair lp with
        | error e => exact absurd h (by simp [parse_block, hkp, hlp])
        | ok lq =>
          obtain ⟨l1, l2⟩ := lq
          cases p with
          | none => exact absurd h (by simp [parse_block, hkp, hlp])
          | some pp =>
            cases hpp : parsePair pp with
            | error e => exact absurd h (by simp [parse_block, hkp, hlp, hpp])
            | ok pq =>
              obtain ⟨p1, p2⟩ := pq
              cases r with
              | none => exact absurd h (by simp [parse_block, hkp, hlp, hpp])
              | some rp =>
                cases hrp : parsePair rp with
                | error e => exact absurd h (by simp [parse_block, hkp, hlp, hpp, hrp])
                | ok rq =>
                  obtain ⟨r1, r2⟩ := rq
                  cases g with
                  | none => exact absurd h (by simp [parse_block, hkp, hlp, hpp, hrp])
                  | some gp => simp

/-- When every matched numeric string in the chunk is well-formed, the source
dichotomy holds: `parse_block` cannot raise, and it skips exactly when some
field group is missing. -/
theorem parse_block_wf_dichotomy (c : Chunk) (hok : chunkStringsOk c = true) :
    parse_block c ≠ .error () ∧
    (parse_block c = .ok none ↔
      c.mK = none ∨ c.mL = none ∨ c.mP = none ∨ c.mR = none ∨ c.mG = none) := by
  rcases c with ⟨k, l, p, r, g⟩
  simp only [chunkStringsOk, Bool.and_eq_true] at hok
  obtain ⟨hK, hL, hP, hR, hG⟩ := hok
  cases k with
  | none => exact ⟨by simp [parse_block], by simp [parse_block]⟩
  | some kp =>
    have hkOk : parseOk (parsePair kp) = true := hK
    cases hkp : parsePair kp with
    | error e =>
      rw [hkp] at hkOk
      exact absurd hkOk (by simp [parseOk])
    | ok kq =>
      obtain ⟨k1, k2⟩ := kq
      cases l with
      | none => exact ⟨by simp [parse_block, hkp], by simp [parse_block, hkp]⟩
      | some lp =>
        have hlOk : parseOk (parsePair lp) = true := hL
        cases hlp : parsePair lp with
        | error e =>
          rw [hlp] at hlOk
          exact absurd hlOk (by simp [parseOk])
        | ok lq =>
          obtain ⟨l1, l2⟩ := lq
          cases p with
          | none =>
            exact ⟨by simp [parse_block, hkp, hlp], by simp [parse_block, hkp, hlp]⟩
          | some pp =>
            have hpOk : parseOk (parsePair pp) = true := hP
            cases hpp : parsePair pp with
            | error e =>
              rw [hpp] at hpOk
              exact absurd hpOk (by simp [parseOk])
            | ok pq =>
              obtain ⟨p1, p2⟩ := pq
              cases r with
              | none =>
                exact ⟨by simp [parse_block, hkp, hlp, hpp],
                  by simp [parse_block, hkp, hlp, hpp]⟩
              | some rp =>
                have hrOk : parseOk (parsePair rp) = true := hR
                cases hrp : parsePair rp with
                | error e =>
                  rw [hrp] at hrOk
                  exact absurd hrOk (by simp [parseOk])
                | ok rq =>
                  obtain ⟨r1, r2⟩ := rq
                  cases g with
                  | none =>
                    exact ⟨by simp [parse_block, hkp, hlp, hpp, hrp],
                      by simp [parse_block, hkp, hlp, hpp, hrp]⟩
                  | some gp =>
                    have hgOk : parseOk (parseQuad gp) = true := hG
                    cases hgp : parseQuad gp with
                    | error e =>
                      rw [hgp] at hgOk
                      exact absurd hgOk (by simp [parseOk])
                    | ok gq =>
                      obtain ⟨q1, q2, q3, q4⟩ := gq
                      exact ⟨by simp [parse_block, hkp, hlp, hpp, hrp, hgp],
                        by simp [parse_block, hkp, hlp, hpp, hrp, hgp]⟩

/-- The chunk-loop invariant: a completed run keeps indices `1..n`. -/
theorem mainFold_indices :
    ∀ (chunks : List Chunk) (acc blocks : List (ℕ × MeasurementBlock)),
      chunks.foldlM mainStep acc = .ok blocks →
      acc.map Prod.fst = List.range' 1 acc.length →
      blocks.map Prod.fst = List.range' 1 blocks.length := by
  intro chunks
  induction chunks with
  | nil =>
    intro acc blocks h hinv
    rw [List.foldlM_nil] at h
    injection h with h
    rw [← h]
    exact hinv
  | cons c rest ih =>
    intro acc blocks h hinv
    rw [List.foldlM_cons] at h
    cases hstep : mainStep acc c with
    | error e =>
      rw [hstep] at h
      have hbot : (Except.error e >>=
          fun acc2 => rest.foldlM mainStep acc2) = (.error e : Except Unit _) := rfl
      rw [hbot] at h
      exact absurd h (by simp)
    | ok acc2 =>
      rw [hstep] at h
      have h2 : rest.foldlM mainStep acc2 = .ok blocks := h
      refine ih acc2 blocks h2 ?_
      unfold mainStep at hstep
      split at hstep
      · exact absurd hstep (by simp)
      · injection hstep with hstep
        rw [← hstep]
        exact hinv
      · injection hstep with hstep
        rw [← hstep, List.map_append, hinv, List.length_append]
        simp [List.range'_concat, Nat.add_comm]

/-! ### Claim theorems on the record extractor -/

/-- C7 counterexample: the regex `[\d.,]+` can match the string `"."` (e.g.
in the chunk `"K1: ., K2: 1"`), on which Python's `float` raises
`ValueError`; `badChunk` has every field group present yet is neither
extracted nor silently skipped — `parse_block` raises and the whole run
aborts, so the extract-or-skip dichotomy fails on some input texts. -/
theorem parse_block_value_error_crash :
    parse_block badChunk = .error () ∧ mainBlocks [badChunk] = .error () ∧
    parse_float ['.'] = none :=
  ⟨rfl, rfl, rfl⟩

/-- C7 (amended): on every run that completes, the emitted `block_index`
values are exactly `1..n` in order with no gaps regardless of how many
chunks were skipped; a constructed block requires all five field groups
(twelve numeric fields, `,` normalised to `.` before parsing); and for every
chunk whose matched numeric strings are well-formed decimals the source
dichotomy holds — no error, and a skip exactly when a field group is
missing.  A malformed matched string (such as `"."`) instead raises
`ValueError` and aborts the run. -/
theorem mainBlocks_indices_spec (chunks : List Chunk) :
    (∀ blocks, mainBlocks chunks = .ok blocks →
      blocks.map Prod.fst = List.range' 1 blocks.length) ∧
    (∀ c b, parse_block c = .ok (some b) →
      c.mK.isSome ∧ c.mL.isSome ∧ c.mP.isSome ∧ c.mR.isSome ∧ c.mG.isSome) ∧
    (∀ c : Chunk, chunkStringsOk c = true →
      parse_block c ≠ .error () ∧
      (parse_block c = .ok none ↔
        c.mK = none ∨ c.mL = none ∨ c.mP = none ∨ c.mR = none ∨ c.mG = none)) ∧
    (∀ s : List Char, parse_float s = parseDecimal (normalizeSep s)) :=
  ⟨fun blocks h => mainFold_indices chunks [] blocks h rfl,
   fun _ _ h => parse_block_ok_some h,
   parse_block_wf_dichotomy,
   fun _ => rfl⟩

/-- C7 witness: the extractor theorem applied to the single-chunk list
`[sampleChunk]`, whose `L2` field uses the `,` separator. -/
theorem mainBlocks_indices_spec_witness :
    ([((1:ℕ), sampleChunkBlock)]).map Prod.fst =
      List.range' 1 ([((1:ℕ), sampleChunkBlock)]).length ∧
    (sampleChunk.mK.isSome ∧ sampleChunk.mL.isSome ∧ sampleChunk.mP.isSome ∧
      sampleChunk.mR.isSome ∧ sampleChunk.mG.isSome) ∧
    (parse_block sampleChunk ≠ .error () ∧
      (parse_block sampleChunk = .ok none ↔
        sampleChunk.mK = none ∨ sampleChunk.mL = none ∨ sampleChunk.mP = none ∨
        sampleChunk.mR = none ∨ sampleChunk.mG = none)) ∧
    parse_float ['0', ',', '6'] = parseDecimal (normalizeSep ['0', ',', '6']) := by
  have e1 : parse_float ['1'] = some ((1:ℕ):ℚ) := rfl
  have e2 : parse_float ['2'] = some ((2:ℕ):ℚ) := rfl
  have e3 : parse_float ['0', '.', '5'] = some (((0:ℕ):ℚ) + ((5:ℕ):ℚ) / 10 ^ 1) := rfl
  have e4 : parse_float ['0', ',', '6'] = some (((0:ℕ):ℚ) + ((6:ℕ):ℚ) / 10 ^ 1) := rfl
  have hp : parse_block sampleChunk = .ok (some sampleChunkBlock) := by
    simp only [parse_block, parsePair, parseQuad, sampleChunk, e1, e2, e3, e4,
      sampleChunkBlock]
    norm_num [Option.some.injEq, MeasurementBlock.mk.injEq]
  have hml : mainBlocks [sampleChunk] = .ok [(1, sampleChunkBlock)] := by
    unfold mainBlocks
    rw [List.foldlM_cons,
      show mainStep [] sampleChunk = .ok [(1, sampleChunkBlock)] from by
        unfold mainStep
        rw [hp]
        rfl]
    rfl
  exact ⟨(mainBlocks_indices_spec [sampleChunk]).1 [(1, sampleChunkBlock)] hml,
    (mainBlocks_indices_spec [sampleChunk]).2.1 sampleChunk sampleChunkBlock hp,
    (mainBlocks_indices_spec [sampleChunk]).2.2.1 sampleChunk rfl,
    (mainBlocks_indices_spec [sampleChunk]).2.2.2 ['0', ',', '6']⟩

end AnalyzisExpertize
